import Mathlib

/-!
Verification of the WeWorld Index 2024 aggregation and scorecard metrics.

The observation table is modelled as a list of rows; scores are exact
rationals standing for the float values of the data set, with `none` for a
missing value (`NaN`).  The scorecard callbacks of
`app/layout/callbacks/render_scorecards.py` are translated as pure
functions; a Python exception raised while building a view is modelled with
`Except String`.  Operations whose source lives outside the provided tree
(`utilis.py`, `configuration.py`, the aggregation methodology itself) are
modelled from the specification and say so in their doc comments.
-/

namespace WeWorld

/-- One row of the observation table: a (territory, year) record with its
`area` grouping (`none` for aggregate rows) and the named score columns. -/
structure Row where
  territory : String
  area : Option String
  year : Int
  scores : List (String × Option ℚ)
deriving DecidableEq

/-- Column access on a row; an absent column reads as missing, like a
`NaN` cell of the wide table. -/
def getScore (r : Row) (f : String) : Option ℚ :=
  match r.scores.lookup f with
  | some v => v
  | none => none

/-! ### Hierarchical aggregation (modelled from the spec) -/

/-- All-or-nothing sequencing of a list of optional scores: `none` as soon
as one entry is missing. -/
def seqOpt : List (Option ℝ) → Option (List ℝ)
  | [] => some []
  | none :: _ => none
  | some v :: rest => (seqOpt rest).map (fun vs => v :: vs)

/-- Modelled from the spec: the geometric mean, the nth root of the
product of the inputs with n the count of inputs. -/
noncomputable def geomMean (vs : List ℝ) : ℝ :=
  vs.prod ^ ((vs.length : ℝ)⁻¹)

open scoped Classical in
/-- Modelled from the spec: geometric-mean aggregation with the missing
value policy of §4.1 — any missing or non-positive input makes the whole
aggregate missing, with no silent skipping. -/
noncomputable def aggregate_geom (xs : List (Option ℝ)) : Option ℝ :=
  match seqOpt xs with
  | none => none
  | some vs => if ∀ v ∈ vs, 0 < v then some (geomMean vs) else none

/-- Modelled from the spec: `aggregate_subindex`, the geometric mean of a
sequence of Dimension scores (exactly 5 in this dataset). -/
noncomputable def aggregate_subindex (xs : List (Option ℝ)) : Option ℝ :=
  aggregate_geom xs

/-- Modelled from the spec: `aggregate_index`, the geometric mean of the 3
Sub-index scores, same missing-value policy. -/
noncomputable def aggregate_index (xs : List (Option ℝ)) : Option ℝ :=
  aggregate_geom xs

/-- Modelled from the spec: `aggregate_dimension`, the arithmetic mean of
exactly two Component scores; missing either input gives a missing
output. -/
noncomputable def aggregate_dimension (a b : Option ℝ) : Option ℝ :=
  match a, b with
  | some x, some y => some ((x + y) / 2)
  | _, _ => none

/-! ### Significant-figure rounding (modelled from the spec, `sig_round`
of `utilis.py` is not in the provided tree) -/

/-- Fuel-driven base-10 floor logarithm on naturals: largest `k` with
`10 ^ k ≤ n`, for `n ≥ 1`. -/
def log10Go : ℕ → ℕ → ℕ
  | 0, _ => 0
  | fuel + 1, n => if n < 10 then 0 else log10Go fuel (n / 10) + 1

/-- The value `natLog10 n` is the floor of `log₁₀ n` for `n ≥ 1`. -/
def natLog10 (n : ℕ) : ℕ :=
  log10Go n n

/-- Fuel-driven base-10 ceiling logarithm on naturals: smallest `k` with
`n ≤ 10 ^ k`. -/
def clog10Go : ℕ → ℕ → ℕ
  | 0, _ => 0
  | fuel + 1, n => if n ≤ 1 then 0 else clog10Go fuel ((n + 9) / 10) + 1

/-- The value `natClog10 n` is the ceiling of `log₁₀ n` for `n ≥ 1`. -/
def natClog10 (n : ℕ) : ℕ :=
  clog10Go n n

/-- Floor of the base-10 logarithm of a positive rational. -/
def ratFloorLog10 (q : ℚ) : ℤ :=
  if 1 ≤ q then (natLog10 ⌊q⌋.toNat : ℤ) else -(natClog10 ⌈q⁻¹⌉.toNat : ℤ)

/-- Modelled from the spec: `sig_round`, rounding to a fixed number of
significant figures (not decimal places); e.g. two significant figures
send 0.0034567 to 0.0035 and 1234.5 to 1200. -/
def sigRound (sig : ℕ) (q : ℚ) : ℚ :=
  if q = 0 then 0
  else
    ((round (q / (10 : ℚ) ^ (ratFloorLog10 |q| - sig + 1)) : ℤ) : ℚ) *
      (10 : ℚ) ^ (ratFloorLog10 |q| - sig + 1)

/-- Subtraction on optional scores: `NaN` arithmetic, a missing operand
gives a missing result. -/
def optSub (a b : Option ℚ) : Option ℚ :=
  match a, b with
  | some x, some y => some (x - y)
  | _, _ => none

/-- The rounding lifted to optional scores: never raises, a missing input
stays missing.  The display code rounds to 2 significant figures. -/
def sigRoundOpt (x : Option ℚ) : Option ℚ :=
  x.map (sigRound 2)

/-- Modelled from the spec: `delta`, the signed difference of a score and
a reference score rounded to 2 significant figures; missing either side
gives a missing result, never an error. -/
def delta (s r : Option ℚ) : Option ℚ :=
  sigRoundOpt (optSub s r)

/-! ### Ranking (`update_scorecard_summary`, lines 75-91) -/

/-- The ranked set of `update_scorecard_summary`: the rows of a year whose
`area` is not null (the 157 countries; Areas and the World have a null
`area` and are excluded). -/
def rankedRows (data : List Row) (yr : Int) : List Row :=
  data.filter (fun r => r.area.isSome && r.year == yr)

/-- The pandas `rank(ascending=False, method='min')` value looked up at
one territory, with the `KeyError` fallback of lines 79-82: a territory
absent from the ranked set, or one whose metric value is missing, gets a
missing rank; otherwise the rank is one more than the number of
territories with a strictly greater value. -/
def rank_loc (data : List Row) (metric : String) (yr : Int) (t : String) : Option ℚ :=
  match (rankedRows data yr).find? (fun r => r.territory == t) with
  | none => none
  | some r =>
    match getScore r metric with
    | none => none
    | some v =>
        some ((((rankedRows data yr).filterMap
          (fun r2 => getScore r2 metric)).countP (fun w => decide (v < w)) + 1 : ℕ) : ℚ)

/-! ### Tier classification (`pd.cut(..., right=False)`, line 78) -/

/-- Translation of `pd.cut` with `right=False`: walk the breakpoints, classify `x` into
the first half-open bin `[bins i, bins (i+1))` that contains it; a value
outside every bin gets no label. -/
def pdCut (bins : List ℚ) (labels : List String) (x : ℚ) : Option String :=
  match bins, labels with
  | b0 :: b1 :: bs, l :: ls =>
      if b0 ≤ x ∧ x < b1 then some l else pdCut (b1 :: bs) ls x
  | _, _ => none

/-- The tier of an Index score: the configuration-defined bins applied to
the score, a missing score giving a missing tier. -/
def tierOf (bins : List ℚ) (labels : List String) (score : Option ℚ) : Option String :=
  score.bind (fun x => pdCut bins labels x)

/-! ### Value formatting (modelled from the spec, `get_value` and
`sig_format` of `utilis.py` are not in the provided tree) -/

/-- A cell of a row seen by the formatter: a number, a text, or missing. -/
inductive Cell where
  | num (q : ℚ)
  | txt (s : String)
  | missing
deriving DecidableEq

/-- A display format: either a fixed-decimal numeric template (decimal
count, thousands grouping, leading and trailing text) or a plain text
template. -/
inductive Fmt where
  | numeric (decimals : ℕ) (grouping : Bool) (pre suf : String)
  | plain (pre suf : String)
deriving DecidableEq

/-- Insert a thousands separator every three digits of a reversed digit
list. -/
def group3Rev : List Char → List Char
  | a :: b :: c :: d :: rest => a :: b :: c :: ',' :: group3Rev (d :: rest)
  | l => l

/-- Decimal digits of a natural number with optional thousands
grouping. -/
def withCommas (grouping : Bool) (n : ℕ) : String :=
  if grouping then String.mk ((group3Rev (Nat.repr n).data.reverse).reverse)
  else Nat.repr n

/-- The fractional digits, left-padded with zeros to the decimal count. -/
def padFrac (d : ℕ) (fp : ℕ) : String :=
  let s := Nat.repr fp
  String.mk (List.replicate (d - s.length) '0') ++ s

/-- Fixed-decimal rendering of a rational, rounding to `d` decimals. -/
def formatFixed (grouping : Bool) (d : ℕ) (q : ℚ) : String :=
  let sign := if q < 0 then "-" else ""
  let n : ℕ := (round (|q| * (10 : ℚ) ^ d)).toNat
  let ip := n / 10 ^ d
  let fp := n % 10 ^ d
  if d = 0 then sign ++ withCommas grouping ip
  else sign ++ withCommas grouping ip ++ "." ++ padFrac d fp

/-- Modelled from the spec: `format_value` — divide the value by `scale`
first, then format it; a missing or non-numeric input under a numeric
template degrades to the missing label instead of raising. -/
def format_value (v : Cell) (f : Fmt) (scale : ℚ) (label : String) : String :=
  match v, f with
  | Cell.missing, _ => label
  | Cell.txt s, Fmt.plain p q => p ++ s ++ q
  | Cell.txt _, Fmt.numeric _ _ _ _ => label
  | Cell.num x, Fmt.numeric d g p q => p ++ formatFixed g d (x / scale) ++ q
  | Cell.num x, Fmt.plain p q => p ++ toString x ++ q

/-- A row seen as a pandas Series after `set_index('territory')`: named
cells. -/
def getEntry (s : List (String × Cell)) (k : String) : Cell :=
  match s.lookup k with
  | some c => c
  | none => Cell.missing

/-- Series item assignment on a per-request copy: the new binding shadows
any previous one, the original list value is untouched. -/
def setEntry (s : List (String × Cell)) (k : String) (v : Cell) : List (String × Cell) :=
  (k, v) :: s

/-- Modelled from the spec: `get_value`, the single chokepoint every
displayed numeric text passes through, with missing label `N/A`. -/
def get_value (s : List (String × Cell)) (k : String) (f : Fmt) (scale : ℚ) : String :=
  format_value (getEntry s k) f scale "N/A"

/-- The Series of one observation row: its `area`, `year` and score
columns as cells. -/
def rowToSeries (r : Row) : List (String × Cell) :=
  ("area", match r.area with | some a => Cell.txt a | none => Cell.missing) ::
  ("year", Cell.num (r.year : ℚ)) ::
  r.scores.map (fun p => (p.1, match p.2 with | some v => Cell.num v | none => Cell.missing))

/-! ### The scorecard summary callback (lines 75-91) -/

/-- Translation of `update_scorecard_summary`: select the territory's 2023 row, attach
`tier` and `rank` to the per-request copy, and format the six summary
values through `get_value`.  `none` models the uncaught `KeyError` of an
unknown territory. -/
def update_scorecard_summary (bins : List ℚ) (labels : List String)
    (data : List Row) (territory : String) : Option (List String) :=
  match (data.filter (fun r => r.year == 2023)).find? (fun r => r.territory == territory) with
  | none => none
  | some r =>
    let s0 := rowToSeries r
    let tierCell :=
      match tierOf bins labels (getScore r "CFA Index") with
      | some l => Cell.txt l
      | none => Cell.missing
    let s1 := setEntry s0 "tier" tierCell
    let rankCell :=
      match rank_loc data "CFA Index" 2023 territory with
      | some v => Cell.num v
      | none => Cell.missing
    let s2 := setEntry s1 "rank" rankCell
    some [
      get_value s2 "area" (Fmt.plain "" "") 1,
      get_value s2 "Population, total" (Fmt.numeric 3 true "" " millions") 1000000,
      get_value s2 "GDP per capita" (Fmt.numeric 0 true "US$" "") 1,
      get_value s2 "CFA Index" (Fmt.plain "" "/100") 1,
      get_value s2 "rank" (Fmt.numeric 0 false "" "/157") 1,
      get_value s2 "tier" (Fmt.plain "" "") 1
    ]

/-! ### The scorecard table callback (`display_table`, lines 157-231) -/

/-- Membership in the `areas` dictionary of line 20-21: the non-null
`area` values of the data plus the added `World` key. -/
def isAreaKey (data : List Row) (t : String) : Bool :=
  t == "World" || data.any (fun r => r.area == some t)

/-- Translation of `df[feature].values[0]`: the first row's cell, an `IndexError` on an
empty frame. -/
def firstScore (rows : List Row) (f : String) : Except String (Option ℚ) :=
  match rows with
  | [] => Except.error "IndexError"
  | r :: _ => Except.ok (getScore r f)

/-- Translation of the area lookup of line 159: the
`area` of the territory's first row, an `IndexError` if it has none. -/
def lookupArea (data : List Row) (t : String) : Except String (Option String) :=
  match data.find? (fun r => r.territory == t) with
  | none => Except.error "IndexError"
  | some r => Except.ok r.area

/-- The territory list of lines 161-167: the World alone, a null-area
territory with the World, and otherwise territory, area and World. -/
def territoryList (t : String) (area : Option String) : List String :=
  if t == "World" then [t]
  else
    match area with
    | none => [t, "World"]
    | some a => [t, a, "World"]

/-- The `query` of line 169: keep the 2023 rows of the listed
territories. -/
def dfForTable (data : List Row) (tlist : List String) : List Row :=
  data.filter (fun r => tlist.contains r.territory && r.year == 2023)

/-- The per-feature body of the `display_table` loop (lines 181-194),
returning the triple (score, change from area, change from world).  The
reference frames are indexed before the deltas are rounded, so an empty
reference frame raises; afterwards a missing own score forces both
changes to missing. -/
def tableEntry (data : List Row) (territory : String)
    (df_t df_a df_w : List Row) (f : String) :
    Except String (Option ℚ × Option ℚ × Option ℚ) := do
  let score ← firstScore df_t f
  let pair ←
    if territory == "World" then
      Except.ok ((none : Option ℚ), (none : Option ℚ))
    else if isAreaKey data territory then do
      let w ← firstScore df_w f
      Except.ok ((none : Option ℚ), sigRoundOpt (optSub score w))
    else do
      let a ← firstScore df_a f
      let w ← firstScore df_w f
      Except.ok (sigRoundOpt (optSub score a), sigRoundOpt (optSub score w))
  if score.isNone then Except.ok (score, none, none)
  else Except.ok (score, pair.1, pair.2)

/-- Error-propagating map over the features, like the Python `for` loop
that appends one table row per feature and aborts on the first
exception. -/
def mapExcept {α β : Type} (g : α → Except String β) : List α → Except String (List β)
  | [] => Except.ok []
  | a :: l => do
    let b ← g a
    let bs ← mapExcept g l
    Except.ok (b :: bs)

/-- Translation of `display_table`: look up the territory's area, build the 2023 frames
of the territory, its area and the World, and compute the numeric triple
of every feature row of the scorecard table. -/
def display_table (data : List Row) (features : List String) (territory : String) :
    Except String (List (Option ℚ × Option ℚ × Option ℚ)) := do
  let area ← lookupArea data territory
  let df := dfForTable data (territoryList territory area)
  let df_t := df.filter (fun r => r.territory == territory)
  let df_a := df.filter (fun r => area == some r.territory)
  let df_w := df.filter (fun r => r.territory == "World")
  mapExcept (tableEntry data territory df_t df_a df_w) features

/-- Holds the value `true` exactly on a computation that completed without raising. -/
def exceptOk {β : Type} : Except String β → Bool
  | Except.ok _ => true
  | Except.error _ => false

/-! ### The remaining scorecard callbacks, and the shared tables -/

/-- Translation of `update_scorecard_map` (lines 39-63): the choropleth's frame, an area
key selecting its member rows and a plain territory its own rows.  Both
selections are fresh frames. -/
def update_scorecard_map (data : List Row) (territory : String) : List Row :=
  if isAreaKey data territory then data.filter (fun r => r.area == some territory)
  else data.filter (fun r => r.territory == territory)

/-- Translation of `display_evolution` (lines 97-121): the line chart's frame, the
territory together with its area and the World unless it is the World
itself.  A null area matches no row, like `NaN` in a pandas `query`. -/
def display_evolution (data : List Row) (territory : String) : List Row :=
  let area := (data.find? (fun r => r.territory == territory)).bind Row.area
  let tlist :=
    if territory == "World" then [some territory]
    else [some territory, area, some "World"]
  data.filter (fun r => tlist.contains (some r.territory))

/-- Translation of `display_radar` (lines 127-151): the 2023 rows of the territory, its
area and the World, melted into (territory, dimension, score) records. -/
def display_radar (data : List Row) (dims : List String) (territory : String) :
    List (String × String × Option ℚ) :=
  let area := (data.find? (fun r => r.territory == territory)).bind Row.area
  let tlist :=
    if territory == "World" then [some territory]
    else [some territory, area, some "World"]
  let df := data.filter (fun r => tlist.contains (some r.territory) && r.year == 2023)
  df.flatMap (fun r => dims.map (fun d => (r.territory, d, getScore r d)))

/-- The process-wide tables: the observation table and the indicator
metadata table, loaded once at start. -/
structure Tables where
  data : List Row
  meta : List (Nat × String)
deriving DecidableEq

/-- The scorecard summary callback run against the shared tables: every
pandas selection it performs is a fresh copy, so the tables come back as
they went in. -/
def run_summary (bins : List ℚ) (labels : List String) (s : Tables) (t : String) :
    Option (List String) × Tables :=
  (update_scorecard_summary bins labels s.data t, s)

/-- The scorecard map callback run against the shared tables. -/
def run_map (s : Tables) (t : String) : List Row × Tables :=
  (update_scorecard_map s.data t, s)

/-- The scorecard progress callback run against the shared tables. -/
def run_evolution (s : Tables) (t : String) : List Row × Tables :=
  (display_evolution s.data t, s)

/-- The scorecard radar callback run against the shared tables. -/
def run_radar (dims : List String) (s : Tables) (t : String) :
    List (String × String × Option ℚ) × Tables :=
  (display_radar s.data dims t, s)

/-- The scorecard table callback run against the shared tables. -/
def run_table (features : List String) (s : Tables) (t : String) :
    Except String (List (Option ℚ × Option ℚ × Option ℚ)) × Tables :=
  (display_table s.data features t, s)

/-! ### Concrete fixtures used by the witnesses and counterexamples -/

/-- Geometric-mean fixture: five present, positive Dimension scores. -/
def wSub : List (Option ℝ) := [some 2, some 2, some 2, some 2, some 2]

/-- Geometric-mean fixture with a missing entry. -/
def wSubBad : List (Option ℝ) := [some 1, none, some 1, some 1, some 1]

/-- Index fixture: three present, positive Sub-index scores. -/
def wIdx : List (Option ℝ) := [some 3, some 3, some 3]

/-- Index fixture with a non-positive entry. -/
def wIdxBad : List (Option ℝ) := [some 1, some 0, some 1]

/-- Ranking fixture: three territories scoring 90, 90 and 80. -/
def rankFixture : List Row :=
  [⟨"A", some "E", 2023, [("CFA Index", some 90)]⟩,
   ⟨"B", some "E", 2023, [("CFA Index", some 90)]⟩,
   ⟨"C", some "E", 2023, [("CFA Index", some 80)]⟩]

/-- The first row of the ranking fixture. -/
def rowA : Row := ⟨"A", some "E", 2023, [("CFA Index", some 90)]⟩

/-- Tier fixture breakpoints. -/
def tierBinsW : List ℚ := [0, 20, 40, 60, 80, 101]

/-- Tier fixture labels. -/
def tierLabelsW : List String := ["Very Low", "Low", "Medium", "High", "Very High"]

/-- A country of the scorecard fixture, member of area `E`. -/
def rowCW : Row := ⟨"C", some "E", 2023, [("F", some 50)]⟩

/-- The same country with its score missing. -/
def rowCMiss : Row := ⟨"C", some "E", 2023, [("F", none)]⟩

/-- The area row of the scorecard fixture: a null `area` of its own. -/
def rowEW : Row := ⟨"E", none, 2023, [("F", some 40)]⟩

/-- The World row of the scorecard fixture. -/
def rowWW : Row := ⟨"World", none, 2023, [("F", some 60)]⟩

/-- A well-formed scorecard data set: a country, its area and the World. -/
def goodData : List Row := [rowCW, rowEW, rowWW]

/-- A data set with a territory whose `area` is null but which is neither
an Area key nor the World. -/
def c8Data : List Row :=
  [⟨"X", none, 2023, [("F", some 50)]⟩, rowWW]

/-- The table entry the World scorecard shows for feature `F`. -/
def eWorld : Option ℚ × Option ℚ × Option ℚ := (some 60, none, none)

/-- The table entry the Area scorecard shows for feature `F`. -/
def eArea : Option ℚ × Option ℚ × Option ℚ :=
  (some 40, none, sigRoundOpt (optSub (some 40) (some 60)))

/-! ## Theorems -/

theorem seqOpt_of_not_none {xs : List (Option ℝ)} (h : none ∉ xs) :
    seqOpt xs = some (xs.filterMap id) := by
  induction xs with
  | nil => rfl
  | cons a l ih =>
    cases a with
    | none => exact absurd (List.mem_cons_self _ _) h
    | some v =>
      have h' : none ∉ l := fun hm => h (List.mem_cons_of_mem _ hm)
      simp [seqOpt, ih h', List.filterMap_cons]

theorem seqOpt_of_none {xs : List (Option ℝ)} (h : none ∈ xs) : seqOpt xs = none := by
  induction xs with
  | nil => cases h
  | cons a l ih =>
    cases a with
    | none => rfl
    | some v =>
      have h' : none ∈ l := by
        rcases List.mem_cons.mp h with h1 | h1
        · exact absurd h1 (by simp)
        · exact h1
      simp [seqOpt, ih h']

theorem filterMap_id_length {xs : List (Option ℝ)} (h : none ∉ xs) :
    (xs.filterMap id).length = xs.length := by
  induction xs with
  | nil => rfl
  | cons a l ih =>
    cases a with
    | none => exact absurd (List.mem_cons_self _ _) h
    | some v =>
      have h' : none ∉ l := fun hm => h (List.mem_cons_of_mem _ hm)
      simp [List.filterMap_cons, ih h']

theorem mem_filterMap_id {xs : List (Option ℝ)} {v : ℝ} :
    v ∈ xs.filterMap id ↔ some v ∈ xs := by
  simp [List.mem_filterMap]

theorem aggregate_geom_pos {xs : List (Option ℝ)} (hn : xs.length ≠ 0)
    (hall : ∀ x ∈ xs, ∃ v, x = some v ∧ 0 < v) :
    ∃ g, aggregate_geom xs = some g ∧ 0 < g ∧
      g ^ xs.length = (xs.filterMap id).prod := by
  have hnone : none ∉ xs := by
    intro hm
    rcases hall none hm with ⟨v, hv, _⟩
    exact Option.noConfusion hv
  have hseq := seqOpt_of_not_none hnone
  have hpos : ∀ v ∈ xs.filterMap id, 0 < v := by
    intro v hv
    rcases hall (some v) (mem_filterMap_id.mp hv) with ⟨w, hw, hw0⟩
    cases hw
    exact hw0
  have hprod : 0 < (xs.filterMap id).prod := List.prod_pos hpos
  have hlen : (xs.filterMap id).length = xs.length := filterMap_id_length hnone
  refine ⟨geomMean (xs.filterMap id), ?_, ?_, ?_⟩
  · simp only [aggregate_geom, hseq]
    rw [if_pos hpos]
  · exact Real.rpow_pos_of_pos hprod _
  · rw [geomMean, hlen]
    exact Real.rpow_inv_natCast_pow hprod.le hn

theorem aggregate_geom_none {xs : List (Option ℝ)}
    (h : none ∈ xs ∨ ∃ v ≤ 0, some v ∈ xs) :
    aggregate_geom xs = none := by
  rcases h with h | ⟨v, hv0, hv⟩
  · simp [aggregate_geom, seqOpt_of_none h]
  · by_cases hn : none ∈ xs
    · simp [aggregate_geom, seqOpt_of_none hn]
    · have hseq := seqOpt_of_not_none hn
      simp only [aggregate_geom, hseq]
      rw [if_neg]
      intro hp
      exact absurd (hp v (mem_filterMap_id.mpr hv)) (not_lt.mpr hv0)

/-- C1: on a sequence of exactly 5 present, positive Dimension scores
`aggregate_subindex` returns the geometric mean — the positive 5th root of
the product of the inputs — and on any sequence with a missing or
non-positive entry it returns the missing sentinel instead of skipping the
entry; `aggregate_index` does the same with its 3 Sub-index scores. -/
theorem subindex_index_geometric_mean (xs ys : List (Option ℝ)) :
    (xs.length = 5 → (∀ x ∈ xs, ∃ v, x = some v ∧ 0 < v) →
      ∃ g, aggregate_subindex xs = some g ∧ 0 < g ∧
        g ^ 5 = (xs.filterMap id).prod) ∧
    ((none ∈ xs ∨ ∃ v ≤ 0, some v ∈ xs) → aggregate_subindex xs = none) ∧
    (ys.length = 3 → (∀ y ∈ ys, ∃ v, y = some v ∧ 0 < v) →
      ∃ g, aggregate_index ys = some g ∧ 0 < g ∧
        g ^ 3 = (ys.filterMap id).prod) ∧
    ((none ∈ ys ∨ ∃ v ≤ 0, some v ∈ ys) → aggregate_index ys = none) := by
  refine ⟨?_, ?_, ?_, ?_⟩
  · intro h5 hall
    obtain ⟨g, hg, hg0, hgp⟩ := aggregate_geom_pos (by rw [h5]; omega) hall
    rw [h5] at hgp
    exact ⟨g, hg, hg0, hgp⟩
  · intro h
    exact aggregate_geom_none h
  · intro h3 hall
    obtain ⟨g, hg, hg0, hgp⟩ := aggregate_geom_pos (by rw [h3]; omega) hall
    rw [h3] at hgp
    exact ⟨g, hg, hg0, hgp⟩
  · intro h
    exact aggregate_geom_none h

theorem subindex_index_geometric_mean_witness :
    (∃ g, aggregate_subindex wSub = some g ∧ 0 < g ∧
      g ^ 5 = (wSub.filterMap id).prod) ∧
    aggregate_subindex wSubBad = none ∧
    (∃ g, aggregate_index wIdx = some g ∧ 0 < g ∧
      g ^ 3 = (wIdx.filterMap id).prod) ∧
    aggregate_index wIdxBad = none := by
  refine ⟨?_, ?_, ?_, ?_⟩
  · refine (subindex_index_geometric_mean wSub wIdx).1 rfl ?_
    intro x hx
    simp only [wSub, List.mem_cons, List.not_mem_nil, or_false] at hx
    rcases hx with h | h | h | h | h <;>
      exact ⟨2, by rw [h], by norm_num⟩
  · exact (subindex_index_geometric_mean wSubBad wIdx).2.1 (Or.inl (by simp [wSubBad]))
  · refine (subindex_index_geometric_mean wSub wIdx).2.2.1 rfl ?_
    intro y hy
    simp only [wIdx, List.mem_cons, List.not_mem_nil, or_false] at hy
    rcases hy with h | h | h <;>
      exact ⟨3, by rw [h], by norm_num⟩
  · exact (subindex_index_geometric_mean wSub wIdxBad).2.2.2
      (Or.inr ⟨0, le_refl 0, by simp [wIdxBad]⟩)

/-- C2: `aggregate_dimension` of two Component scores in `[0, 100]` is
their arithmetic mean, and a missing input on either side gives the
missing sentinel. -/
theorem aggregate_dimension_mean (a b : ℝ) (x : Option ℝ) :
    (0 ≤ a → a ≤ 100 → 0 ≤ b → b ≤ 100 →
      aggregate_dimension (some a) (some b) = some ((a + b) / 2)) ∧
    aggregate_dimension none x = none ∧
    aggregate_dimension x none = none := by
  refine ⟨fun _ _ _ _ => rfl, rfl, ?_⟩
  cases x <;> rfl

theorem aggregate_dimension_mean_witness :
    (0 ≤ (40 : ℝ) ∧ (40 : ℝ) ≤ 100 ∧ 0 ≤ (60 : ℝ) ∧ (60 : ℝ) ≤ 100) ∧
    aggregate_dimension (some (40 : ℝ)) (some 60) = some ((40 + 60) / 2) ∧
    aggregate_dimension none (some (5 : ℝ)) = none ∧
    aggregate_dimension (some (5 : ℝ)) none = none :=
  ⟨⟨by norm_num, by norm_num, by norm_num, by norm_num⟩,
   (aggregate_dimension_mean 40 60 (some 5)).1 (by norm_num) (by norm_num)
     (by norm_num) (by norm_num),
   (aggregate_dimension_mean 40 60 (some 5)).2.1,
   (aggregate_dimension_mean 40 60 (some 5)).2.2⟩

/-- C3: the scorecard rank is the min-method descending rank — one more
than the number of territories of the ranked set whose metric value is
strictly greater — computed over the territories with a non-null `area`
and a non-missing value; ties share the lowest rank number, the fixture
scores 90, 90, 80 ranking 1, 1, 3; a territory absent from the ranked set
(an Area, the World, an unknown name) or with a missing value gets an
undefined rank. -/
theorem rank_min_method_desc (data : List Row) (metric : String) (yr : Int) (t : String) :
    (∀ r, (rankedRows data yr).find? (fun r2 => r2.territory == t) = some r →
      ∀ v, getScore r metric = some v →
      rank_loc data metric yr t =
        some ((((rankedRows data yr).filterMap
          (fun r2 => getScore r2 metric)).countP (fun w => decide (v < w)) + 1 : ℕ) : ℚ)) ∧
    (∀ r, (rankedRows data yr).find? (fun r2 => r2.territory == t) = some r →
      getScore r metric = none → rank_loc data metric yr t = none) ∧
    ((rankedRows data yr).find? (fun r2 => r2.territory == t) = none →
      rank_loc data metric yr t = none) ∧
    (∀ r ∈ rankedRows data yr, r.area ≠ none ∧ r.year = yr) ∧
    (rank_loc rankFixture "CFA Index" 2023 "A" = some 1 ∧
      rank_loc rankFixture "CFA Index" 2023 "B" = some 1 ∧
      rank_loc rankFixture "CFA Index" 2023 "C" = some 3) := by
  refine ⟨?_, ?_, ?_, ?_, by decide, by decide, by decide⟩
  · intro r hfind v hv
    simp only [rank_loc, hfind, hv]
  · intro r hfind hv
    simp only [rank_loc, hfind, hv]
  · intro hfind
    simp only [rank_loc, hfind]
  · intro r hr
    rw [rankedRows, List.mem_filter] at hr
    have h2 := hr.2
    rw [Bool.and_eq_true] at h2
    refine ⟨?_, ?_⟩
    · intro hnone
      rw [hnone] at h2
      exact absurd h2.1 (by simp)
    · exact beq_iff_eq.mp h2.2

theorem rank_min_method_desc_witness :
    rank_loc rankFixture "CFA Index" 2023 "A" =
      some ((((rankedRows rankFixture 2023).filterMap
        (fun r2 => getScore r2 "CFA Index")).countP
          (fun w => decide ((90 : ℚ) < w)) + 1 : ℕ) : ℚ) :=
  (rank_min_method_desc rankFixture "CFA Index" 2023 "A").1 rowA (by decide) 90 (by decide)

theorem except_bind_ok {α β : Type} (a : α) (k : α → Except String β) :
    (Except.ok a : Except String α) >>= k = k a := rfl

theorem except_bind_error {α β : Type} (e : String) (k : α → Except String β) :
    (Except.error e : Except String α) >>= k = Except.error e := rfl

theorem chain_head_le_getD : ∀ (l : List ℚ) (y : ℚ) (i : ℕ),
    List.Chain' (· < ·) (y :: l) → i < (y :: l).length → y ≤ (y :: l).getD i 0
  | _, y, 0, _, _ => le_refl y
  | [], y, i + 1, _, h => by simp at h
  | z :: l, y, i + 1, hch, h => by
    have h1 : y < z := (List.chain'_cons.mp hch).1
    have h2 := chain_head_le_getD l z i (List.chain'_cons.mp hch).2
      (by simp only [List.length_cons] at h ⊢; omega)
    rw [List.getD_cons_succ]
    exact le_trans (le_of_lt h1) h2

theorem chain_getD_lt : ∀ (l : List ℚ) (j : ℕ), List.Chain' (· < ·) l →
    j + 1 < l.length → l.getD j 0 < l.getD (j + 1) 0
  | [], j, _, h => by simp at h
  | [a], j, _, h => by simp at h
  | a :: b :: l, 0, hch, _ => by
    simpa using (List.chain'_cons.mp hch).1
  | a :: b :: l, j + 1, hch, h => by
    have := chain_getD_lt (b :: l) j (List.chain'_cons.mp hch).2
      (by simp only [List.length_cons] at h ⊢; omega)
    simpa using this

theorem pdCut_sound {x : ℚ} : ∀ (bins : List ℚ) (labels : List String) (l : String),
    pdCut bins labels x = some l →
    ∃ i, i + 1 < bins.length ∧ i < labels.length ∧
      bins.getD i 0 ≤ x ∧ x < bins.getD (i + 1) 0 ∧ labels.getD i "" = l
  | [], labels, l, h => by simp [pdCut] at h
  | [b0], labels, l, h => by simp [pdCut] at h
  | b0 :: b1 :: bs, [], l, h => by simp [pdCut] at h
  | b0 :: b1 :: bs, l0 :: ls, l, h => by
    rw [pdCut] at h
    by_cases hc : b0 ≤ x ∧ x < b1
    · rw [if_pos hc] at h
      refine ⟨0, by simp, by simp, hc.1, by simpa using hc.2, by simpa using h⟩
    · rw [if_neg hc] at h
      obtain ⟨i, h1, h2, h3, h4, h5⟩ := pdCut_sound (b1 :: bs) ls l h
      refine ⟨i + 1, ?_, ?_, by simpa using h3, by simpa using h4, by simpa using h5⟩
      · simp only [List.length_cons] at h1 ⊢; omega
      · simp only [List.length_cons] at h2 ⊢; omega

theorem pdCut_complete : ∀ (bins : List ℚ) (labels : List String) (x : ℚ) (i : ℕ),
    List.Chain' (· < ·) bins → i + 1 < bins.length → i < labels.length →
    bins.getD i 0 ≤ x → x < bins.getD (i + 1) 0 →
    pdCut bins labels x = some (labels.getD i "")
  | [], _, _, i, _, h, _, _, _ => by simp at h
  | [b0], _, _, i, _, h, _, _, _ => by simp at h
  | b0 :: b1 :: bs, [], x, i, _, _, h, _, _ => by simp at h
  | b0 :: b1 :: bs, l0 :: ls, x, 0, hch, _, _, hle, hlt => by
    rw [pdCut, if_pos ⟨by simpa using hle, by simpa using hlt⟩]
    simp
  | b0 :: b1 :: bs, l0 :: ls, x, i + 1, hch, hb, hl, hle, hlt => by
    have hble : b1 ≤ x := by
      have hm : i < (b1 :: bs).length := by
        simp only [List.length_cons] at hb ⊢; omega
      have := chain_head_le_getD bs b1 i (List.Chain'.tail hch) hm
      rw [List.getD_cons_succ] at hle
      exact le_trans this hle
    rw [pdCut, if_neg (fun hc => absurd hc.2 (not_lt.mpr hble))]
    have := pdCut_complete (b1 :: bs) ls x i (List.Chain'.tail hch)
      (by simp only [List.length_cons] at hb ⊢; omega)
      (by simp only [List.length_cons] at hl ⊢; omega)
      (by simpa using hle) (by simpa using hlt)
    simpa using this

/-- C4: a present Index score classified by `tierOf` lands in a bin whose
half-open interval contains it, a score exactly at an interior breakpoint
lands in the bin starting at that breakpoint — the higher-value bin — and
a missing score has an undefined tier. -/
theorem tier_halfopen_bins (bins : List ℚ) (labels : List String) (x : ℚ) (i : ℕ) :
    (∀ l, tierOf bins labels (some x) = some l →
      ∃ j, j + 1 < bins.length ∧ j < labels.length ∧
        bins.getD j 0 ≤ x ∧ x < bins.getD (j + 1) 0 ∧ labels.getD j "" = l) ∧
    (List.Chain' (· < ·) bins → i + 2 < bins.length → i + 1 < labels.length →
      tierOf bins labels (some (bins.getD (i + 1) 0)) =
        some (labels.getD (i + 1) "")) ∧
    tierOf bins labels none = none := by
  refine ⟨?_, ?_, rfl⟩
  · intro l h
    exact pdCut_sound bins labels l h
  · intro hch hb hl
    show pdCut bins labels (bins.getD (i + 1) 0) = some (labels.getD (i + 1) "")
    exact pdCut_complete bins labels (bins.getD (i + 1) 0) (i + 1) hch
      (by omega) hl (le_refl _) (chain_getD_lt bins (i + 1) hch (by omega))

theorem tier_halfopen_bins_witness :
    tierOf tierBinsW tierLabelsW (some (tierBinsW.getD 3 0)) =
      some (tierLabelsW.getD 3 "") :=
  (tier_halfopen_bins tierBinsW tierLabelsW 0 2).2.1
    (by norm_num [tierBinsW, List.chain'_cons]) (by decide) (by decide)

theorem ratFloorLog10_2246 : ratFloorLog10 (2246 / 1000 : ℚ) = 0 := by
  rw [ratFloorLog10, if_pos (by norm_num : (1 : ℚ) ≤ 2246 / 1000)]
  rw [show ⌊(2246 / 1000 : ℚ)⌋ = 2 by norm_num]
  rfl

theorem sigRound_2246 : sigRound 2 (2246 / 1000 : ℚ) = 11 / 5 := by
  rw [sigRound, if_neg (by norm_num : ¬(2246 / 1000 : ℚ) = 0),
    show |(2246 / 1000 : ℚ)| = 2246 / 1000 from abs_of_pos (by norm_num),
    ratFloorLog10_2246]
  norm_num [round_eq]

theorem ratFloorLog10_0034567 : ratFloorLog10 (34567 / 10000000 : ℚ) = -3 := by
  rw [ratFloorLog10, if_neg (by norm_num : ¬(1 : ℚ) ≤ 34567 / 10000000)]
  rw [show ⌈(34567 / 10000000 : ℚ)⁻¹⌉ = 290 by norm_num [Int.ceil_eq_iff]]
  rfl

theorem sigRound_0034567 : sigRound 2 (34567 / 10000000 : ℚ) = 35 / 10000 := by
  rw [sigRound, if_neg (by norm_num : ¬(34567 / 10000000 : ℚ) = 0),
    show |(34567 / 10000000 : ℚ)| = 34567 / 10000000 from abs_of_pos (by norm_num),
    ratFloorLog10_0034567]
  norm_num [round_eq]

theorem ratFloorLog10_12345 : ratFloorLog10 (12345 / 10 : ℚ) = 3 := by
  rw [ratFloorLog10, if_pos (by norm_num : (1 : ℚ) ≤ 12345 / 10)]
  rw [show ⌊(12345 / 10 : ℚ)⌋ = 1234 by norm_num]
  rfl

theorem sigRound_12345 : sigRound 2 (12345 / 10 : ℚ) = 1200 := by
  rw [sigRound, if_neg (by norm_num : ¬(12345 / 10 : ℚ) = 0),
    show |(12345 / 10 : ℚ)| = 12345 / 10 from abs_of_pos (by norm_num),
    ratFloorLog10_12345]
  norm_num [round_eq]

/-- C5: `delta` of two present scores is their signed difference rounded
to 2 significant figures — `delta(77.346, 75.1)` is 2.2, and the rounding
acts on significant figures and not decimal places, sending 0.0034567 to
0.0035 and 1234.5 to 1200 — while `delta` against a missing reference (or
of a missing score) is the missing sentinel, and never an error. -/
theorem delta_sigfigs (a b : ℚ) (s r : Option ℚ) :
    delta (some a) (some b) = some (sigRound 2 (a - b)) ∧
    delta s none = none ∧
    delta none r = none ∧
    delta (some (77346 / 1000 : ℚ)) (some (751 / 10)) = some (11 / 5) ∧
    sigRound 2 (34567 / 10000000 : ℚ) = 35 / 10000 ∧
    sigRound 2 (12345 / 10 : ℚ) = 1200 := by
  refine ⟨rfl, ?_, rfl, ?_, sigRound_0034567, sigRound_12345⟩
  · cases s <;> rfl
  · show some (sigRound 2 (77346 / 1000 - 751 / 10 : ℚ)) = some (11 / 5)
    rw [show (77346 / 1000 - 751 / 10 : ℚ) = 2246 / 1000 by norm_num, sigRound_2246]

theorem mapExcept_mem {α β : Type} (g : α → Except String β) :
    ∀ (l : List α) (out : List β), mapExcept g l = Except.ok out →
      ∀ b ∈ out, ∃ a ∈ l, g a = Except.ok b
  | [], out, h => by
    rw [mapExcept] at h
    intro b hb
    obtain rfl : ([] : List β) = out := Except.ok.inj h
    exact absurd hb (List.not_mem_nil b)
  | a :: l, out, h => by
    rw [mapExcept] at h
    cases hga : g a with
    | error e => rw [hga, except_bind_error] at h; exact Except.noConfusion h
    | ok b0 =>
      rw [hga, except_bind_ok] at h
      cases hml : mapExcept g l with
      | error e => rw [hml, except_bind_error] at h; exact Except.noConfusion h
      | ok bs =>
        rw [hml, except_bind_ok] at h
        obtain rfl : b0 :: bs = out := Except.ok.inj h
        intro b hb
        rcases List.mem_cons.mp hb with rfl | hb2
        · exact ⟨a, List.mem_cons_self _ _, hga⟩
        · obtain ⟨a', ha', hga'⟩ := mapExcept_mem g l bs hml b hb2
          exact ⟨a', List.mem_cons_of_mem _ ha', hga'⟩

theorem mapExcept_ok_of_all {α β : Type} (g : α → Except String β) :
    ∀ l : List α, (∀ a ∈ l, exceptOk (g a) = true) →
      exceptOk (mapExcept g l) = true
  | [], _ => rfl
  | a :: l, h => by
    rw [mapExcept]
    cases hga : g a with
    | error e =>
      have ha := h a (List.mem_cons_self _ _)
      rw [hga] at ha
      exact absurd ha (by simp [exceptOk])
    | ok b =>
      rw [except_bind_ok]
      cases hml : mapExcept g l with
      | error e =>
        have hl := mapExcept_ok_of_all g l (fun x hx => h x (List.mem_cons_of_mem _ hx))
        rw [hml] at hl
        exact absurd hl (by simp [exceptOk])
      | ok bs => rw [except_bind_ok]; rfl

theorem display_table_eq (data : List Row) (features : List String) (t : String)
    (r0 : Row) (hfind : data.find? (fun r => r.territory == t) = some r0) :
    display_table data features t =
      mapExcept (tableEntry data t
        ((dfForTable data (territoryList t r0.area)).filter (fun r => r.territory == t))
        ((dfForTable data (territoryList t r0.area)).filter (fun r => r0.area == some r.territory))
        ((dfForTable data (territoryList t r0.area)).filter (fun r => r.territory == "World")))
        features := by
  simp only [display_table, lookupArea, hfind, except_bind_ok]

theorem tableEntry_world (data : List Row) (df_t df_a df_w : List Row) (f : String)
    (e : Option ℚ × Option ℚ × Option ℚ)
    (h : tableEntry data "World" df_t df_a df_w f = Except.ok e) :
    e.2.1 = none ∧ e.2.2 = none := by
  rw [tableEntry] at h
  cases hfs : firstScore df_t f with
  | error s =>
    rw [hfs] at h
    simp only [except_bind_error] at h
    exact Except.noConfusion h
  | ok score =>
    rw [hfs] at h
    simp only [except_bind_ok,
      if_pos (show ("World" == "World") = true from rfl)] at h
    split at h <;> (obtain rfl := Except.ok.inj h) <;> exact ⟨rfl, rfl⟩

theorem tableEntry_area_none (data : List Row) (t : String) (df_t df_a df_w : List Row)
    (f : String) (e : Option ℚ × Option ℚ × Option ℚ)
    (ht : t ≠ "World") (ha : isAreaKey data t = true)
    (h : tableEntry data t df_t df_a df_w f = Except.ok e) :
    e.2.1 = none := by
  rw [tableEntry] at h
  cases hfs : firstScore df_t f with
  | error s =>
    rw [hfs] at h
    simp only [except_bind_error] at h
    exact Except.noConfusion h
  | ok score =>
    rw [hfs] at h
    simp only [except_bind_ok] at h
    rw [if_neg (show ¬((t == "World") = true) by simp [ht]), if_pos ha] at h
    cases hfw : firstScore df_w f with
    | error s =>
      rw [hfw] at h
      simp only [except_bind_error] at h
      exact Except.noConfusion h
    | ok w =>
      rw [hfw] at h
      simp only [except_bind_ok] at h
      split at h <;> (obtain rfl := Except.ok.inj h) <;> rfl

theorem tableEntry_ok (data : List Row) (t f : String) (df_t df_a df_w : List Row)
    (hT : df_t ≠ []) (hW : t ≠ "World" → df_w ≠ [])
    (hA : t ≠ "World" → isAreaKey data t = false → df_a ≠ []) :
    exceptOk (tableEntry data t df_t df_a df_w f) = true := by
  obtain ⟨rt, lt, rfl⟩ := List.exists_cons_of_ne_nil hT
  rw [tableEntry,
    show firstScore (rt :: lt) f = Except.ok (getScore rt f) from rfl]
  simp only [except_bind_ok]
  by_cases ht : t = "World"
  · subst ht
    rw [if_pos (show ("World" == "World") = true from rfl)]
    cases getScore rt f <;> simp [exceptOk, except_bind_ok]
  · rw [if_neg (show ¬((t == "World") = true) by simp [ht])]
    by_cases ha : isAreaKey data t = true
    · rw [if_pos ha]
      obtain ⟨rwo, lw, rfl⟩ := List.exists_cons_of_ne_nil (hW ht)
      rw [show firstScore (rwo :: lw) f = Except.ok (getScore rwo f) from rfl]
      cases getScore rt f <;> simp [exceptOk, except_bind_ok]
    · rw [if_neg ha]
      obtain ⟨ra, la, rfl⟩ := List.exists_cons_of_ne_nil (hA ht (by simpa using ha))
      obtain ⟨rwo, lw, rfl⟩ := List.exists_cons_of_ne_nil (hW ht)
      rw [show firstScore (ra :: la) f = Except.ok (getScore ra f) from rfl]
      rw [show firstScore (rwo :: lw) f = Except.ok (getScore rwo f) from rfl]
      cases getScore rt f <;> simp [exceptOk, except_bind_ok]

/-- C6: in the scorecard table of a year, selecting the World leaves both
the delta from the Area and the delta from the World undefined on every
displayed component; selecting an Area leaves the delta from its Area
undefined while the delta from the World is still computed as the rounded
difference against the World row. -/
theorem table_world_area_deltas (data : List Row) (features : List String)
    (t f : String) (df_a : List Row) (out : List (Option ℚ × Option ℚ × Option ℚ)) :
    (display_table data features "World" = Except.ok out →
      ∀ e ∈ out, e.2.1 = none ∧ e.2.2 = none) ∧
    (t ≠ "World" → isAreaKey data t = true →
      display_table data features t = Except.ok out → ∀ e ∈ out, e.2.1 = none) ∧
    (∀ rt lt rwo lw v, t ≠ "World" → isAreaKey data t = true →
      getScore rt f = some v →
      tableEntry data t (rt :: lt) df_a (rwo :: lw) f =
        Except.ok (some v, none, sigRoundOpt (optSub (some v) (getScore rwo f)))) := by
  refine ⟨?_, ?_, ?_⟩
  · intro h e he
    cases hf : data.find? (fun r => r.territory == "World") with
    | none =>
      simp only [display_table, lookupArea, hf, except_bind_error] at h
      exact Except.noConfusion h
    | some r0 =>
      rw [display_table_eq data features "World" r0 hf] at h
      obtain ⟨a, _, hfe⟩ := mapExcept_mem _ features out h e he
      exact tableEntry_world data _ _ _ a e hfe
  · intro ht ha h e he
    cases hf : data.find? (fun r => r.territory == t) with
    | none =>
      simp only [display_table, lookupArea, hf, except_bind_error] at h
      exact Except.noConfusion h
    | some r0 =>
      rw [display_table_eq data features t r0 hf] at h
      obtain ⟨a, _, hfe⟩ := mapExcept_mem _ features out h e he
      exact tableEntry_area_none data t _ _ _ a e ht ha hfe
  · intro rt lt rwo lw v ht ha hv
    rw [tableEntry,
      show firstScore (rt :: lt) f = Except.ok (getScore rt f) from rfl]
    simp only [except_bind_ok]
    rw [hv, if_neg (show ¬((t == "World") = true) by simp [ht]), if_pos ha,
      show firstScore (rwo :: lw) f = Except.ok (getScore rwo f) from rfl]
    simp only [except_bind_ok]
    rw [if_neg (show ¬((some v : Option ℚ).isNone = true) by simp)]

theorem table_world_area_deltas_witness :
    (eWorld.2.1 = none ∧ eWorld.2.2 = none) ∧
    eArea.2.1 = none ∧
    tableEntry goodData "E" [rowEW] [] [rowWW] "F" =
      Except.ok (some 40, none, sigRoundOpt (optSub (some 40) (getScore rowWW "F"))) :=
  ⟨(table_world_area_deltas goodData ["F"] "E" "F" [] [eWorld]).1 rfl eWorld
      (List.mem_singleton.mpr rfl),
   (table_world_area_deltas goodData ["F"] "E" "F" [] [eArea]).2.1
      (by decide) rfl rfl eArea (List.mem_singleton.mpr rfl),
   (table_world_area_deltas goodData ["F"] "E" "F" [] [eArea]).2.2
      rowEW [] rowWW [] 40 (by decide) rfl rfl⟩

/-- C8 counterexample: for a selectable territory whose `area` is null but
which is neither an Area key nor the World, the scorecard table
computation raises an `IndexError` — it indexes the empty Area reference
frame — contradicting the claim that expected data absence never raises. -/
theorem display_table_null_area_raises :
    display_table c8Data ["F"] "X" = Except.error "IndexError" := rfl

/-- C8 (amended): the scorecard table computation completes without
raising for every selectable territory whose own 2023 row is present,
provided the World 2023 row is present when the territory is not the
World and the Area 2023 reference row is present when it is neither the
World nor an Area key; missing scores inside those rows never raise.  (As
stated the claim fails: a null-`area` territory that is not an Area or
the World, or a missing reference row, raises an `IndexError`.) -/
theorem display_table_completes_amended (data : List Row) (features : List String)
    (t : String) (r0 : Row)
    (hfind : data.find? (fun r => r.territory == t) = some r0)
    (hT : (dfForTable data (territoryList t r0.area)).filter
      (fun r => r.territory == t) ≠ [])
    (hW : t ≠ "World" → (dfForTable data (territoryList t r0.area)).filter
      (fun r => r.territory == "World") ≠ [])
    (hA : t ≠ "World" → isAreaKey data t = false →
      (dfForTable data (territoryList t r0.area)).filter
        (fun r => r0.area == some r.territory) ≠ []) :
    exceptOk (display_table data features t) = true := by
  rw [display_table_eq data features t r0 hfind]
  exact mapExcept_ok_of_all _ features
    (fun f _ => tableEntry_ok data t f _ _ _ hT hW hA)

theorem display_table_completes_amended_witness :
    exceptOk (display_table goodData ["F"] "C") = true :=
  display_table_completes_amended goodData ["F"] "C" rowCW rfl
    (by decide) (fun _ => by decide) (fun _ _ => by decide)

/-- C10: in the scorecard table, a component whose own score is missing
for the selected territory gets an undefined delta from the Area and an
undefined delta from the World, even when both reference scores are
present. -/
theorem missing_score_deltas_missing (data : List Row) (t f : String)
    (rt ra rwo : Row) (lt la lw : List Row) (va vw : ℚ) :
    t ≠ "World" → isAreaKey data t = false →
    getScore rt f = none → getScore ra f = some va → getScore rwo f = some vw →
    tableEntry data t (rt :: lt) (ra :: la) (rwo :: lw) f =
      Except.ok (none, none, none) := by
  intro ht ha hs _ _
  rw [tableEntry,
    show firstScore (rt :: lt) f = Except.ok (getScore rt f) from rfl]
  simp only [except_bind_ok]
  rw [hs, if_neg (show ¬((t == "World") = true) by simp [ht]),
    if_neg (show ¬(isAreaKey data t = true) by simp [ha]),
    show firstScore (ra :: la) f = Except.ok (getScore ra f) from rfl]
  simp only [except_bind_ok]
  rw [show firstScore (rwo :: lw) f = Except.ok (getScore rwo f) from rfl]
  simp only [except_bind_ok]
  rw [if_pos (show (none : Option ℚ).isNone = true from rfl)]

theorem missing_score_deltas_missing_witness :
    tableEntry goodData "C" [rowCMiss] [rowEW] [rowWW] "F" =
      Except.ok (none, none, none) :=
  missing_score_deltas_missing goodData "C" "F" rowCMiss rowEW rowWW [] [] [] 40 60
    (by decide) rfl rfl rfl rfl

/-- C7: `format_value` divides a numeric value by its scale before
formatting it, returns the missing label on a missing or non-numeric
input instead of raising, renders a missing population as `N/A`, and
renders 82300000 at scale 10^6 with a grouped 3-decimal template as
`82.300 millions`. -/
theorem format_value_chokepoint (q scale : ℚ) (d : ℕ) (g : Bool)
    (p u lbl t : String) (f : Fmt) :
    format_value (Cell.num q) (Fmt.numeric d g p u) scale lbl =
      p ++ formatFixed g d (q / scale) ++ u ∧
    format_value Cell.missing f scale lbl = lbl ∧
    format_value (Cell.txt t) (Fmt.numeric d g p u) scale lbl = lbl ∧
    format_value (Cell.num 82300000) (Fmt.numeric 3 true "" " millions")
      1000000 "N/A" = "82.300 millions" ∧
    get_value [] "Population, total" (Fmt.numeric 3 true "" " millions")
      1000000 = "N/A" := by
  refine ⟨rfl, ?_, rfl, ?_, rfl⟩
  · cases f <;> rfl
  · show "" ++ formatFixed true 3 ((82300000 : ℚ) / 1000000) ++ " millions" =
      "82.300 millions"
    rw [show (82300000 : ℚ) / 1000000 = 823 / 10 by norm_num]
    simp only [formatFixed]
    rw [if_neg (show ¬((823 / 10 : ℚ) < 0) by norm_num),
      show |(823 / 10 : ℚ)| = 823 / 10 from abs_of_pos (by norm_num),
      show round ((823 / 10 : ℚ) * 10 ^ (3 : ℕ)) = 82300 by norm_num [round_eq]]
    decide

/-- C9: each scorecard callback — summary, map, progress, radar and table
— computes its view from the shared tables through fresh per-request
copies and hands the tables back unchanged; derived fields such as `tier`
and `rank` are attached only to the per-request Series copy inside
`update_scorecard_summary`. -/
theorem callbacks_preserve_tables (bins : List ℚ) (labels : List String)
    (features dims : List String) (s : Tables) (t : String) :
    (run_summary bins labels s t).2 = s ∧ (run_map s t).2 = s ∧
    (run_evolution s t).2 = s ∧ (run_radar dims s t).2 = s ∧
    (run_table features s t).2 = s :=
  ⟨rfl, rfl, rfl, rfl, rfl⟩

end WeWorld
